import Mathlib

set_option maxHeartbeats 1000000

namespace NatronSpec

/-! Shallow embedding of `src/Engine/NodeGroup.cpp` (Natron's node-graph
collection layer): membership, recursive traversal, naming, teardown,
auto-connection and serialization restore.  Each section embeds one family
of functions of the source; theorems at the end settle the spec claims. -/

/-! ## Frame-range aggregation
`NodeCollection::recomputeFrameRangeForAllReadersInternal` (NodeGroup.cpp
lines 910-949).  A member is either a reader (its `getFrameRange_public`
outcome is carried as data: `ok` is the negation of `isFailureRetCode`,
`rmin`/`rmax` the returned range), a nested group carrying its own member
list, or any other effect. -/

def INT_MIN : Int := -2147483648

def INT_MAX : Int := 2147483647

inductive FNode where
  | reader (ok : Bool) (rmin rmax : Int)
  | group (children : List FNode)
  | other

/-- Embedding of `recomputeFrameRangeForAllReadersInternal`: walks the member
list threading the accumulator `(firstFrame, lastFrame)`.  For a reader with a
successful range action, `firstFrame` is overwritten when `setFrameRange` is
true and min-combined otherwise (resp. `lastFrame` / max), each guarded by the
source's `INT_MIN` / `INT_MAX` sentinel checks; a nested group recurses with
`setFrameRange = false`. -/
def recomputeFrameRangeForAllReadersInternal (setFrameRange : Bool) :
    List FNode → Int × Int → Int × Int
  | [], st => st
  | FNode.reader ok rmin rmax :: rest, st =>
      let st1 :=
        if ok then
          let f := if rmin ≠ INT_MIN then (if setFrameRange then rmin else min st.1 rmin) else st.1
          let l := if rmax ≠ INT_MAX then (if setFrameRange then rmax else max st.2 rmax) else st.2
          (f, l)
        else st
      recomputeFrameRangeForAllReadersInternal setFrameRange rest st1
  | FNode.group cs :: rest, st =>
      recomputeFrameRangeForAllReadersInternal setFrameRange rest
        (recomputeFrameRangeForAllReadersInternal false cs st)
  | FNode.other :: rest, st =>
      recomputeFrameRangeForAllReadersInternal setFrameRange rest st

/-- Embedding of `NodeCollection::recomputeFrameRangeForAllReaders`: the entry
point calls the internal walk with `setFrameRange = true`. -/
def recomputeFrameRangeForAllReaders (firstFrame lastFrame : Int) (cs : List FNode) : Int × Int :=
  recomputeFrameRangeForAllReadersInternal true cs (firstFrame, lastFrame)

/-! ## Recursive traversal and teardown
`NodeCollection::getNodes_recursive` (lines 136-159) and
`NodeCollection::clearNodesInternal` (lines 383-420).  A member is either a
plain node or a group holding a nested member list; members carry an identity
so teardown order can be observed. -/

inductive GNode where
  | node (id : Nat)
  | group (id : Nat) (children : List GNode)

def GNode.idOf : GNode → Nat
  | GNode.node i => i
  | GNode.group i _ => i

mutual
/-- Second phase of the snapshot loop of `getNodes_recursive`: recursion into
the collected `groupToRecurse` list.  Non-group members contribute nothing;
when `onlyActive` is true the loop body is `continue`, so nothing is appended
and no group is collected for recursion. -/
def getNodesRecursiveGroups (onlyActive : Bool) : List GNode → List GNode
  | [] => []
  | c :: rest => getNodesRecursiveChild onlyActive c ++ getNodesRecursiveGroups onlyActive rest

/-- Contribution of one collected member to the recursion: a plain node was
never added to `groupToRecurse`, a group contributes its own
`getNodes_recursive` (members of its level first, then its nested groups). -/
def getNodesRecursiveChild (onlyActive : Bool) : GNode → List GNode
  | GNode.node _ => []
  | GNode.group _ cs =>
      if onlyActive then [] else cs ++ getNodesRecursiveGroups onlyActive cs
end

/-- Embedding of `NodeCollection::getNodes_recursive`: under the lock the loop
appends members and collects the groups among them into `groupToRecurse`
(when `onlyActive` is true the loop body is `continue`, so both are empty),
then recurses on the collected groups outside the lock. -/
def getNodes_recursive (onlyActive : Bool) (cs : List GNode) : List GNode :=
  if onlyActive then [] else cs ++ getNodesRecursiveGroups onlyActive cs

/-- First phase of `clearNodesInternal` over the snapshot: for each member
that is a group, recursively run the whole `clearNodesInternal` of its nested
collection (which itself is phase one of the children followed by the
`destroyNode` calls of the children).  The result is the sequence of node ids
in `destroyNode` order. -/
def clearNodesPhase1 : List GNode → List Nat
  | [] => []
  | GNode.node _ :: rest => clearNodesPhase1 rest
  | GNode.group _ cs :: rest =>
      (clearNodesPhase1 cs ++ cs.map GNode.idOf) ++ clearNodesPhase1 rest

/-- Embedding of `NodeCollection::clearNodesInternal` as the trace of
`destroyNode` calls it issues: first the recursive teardown of every nested
group's contents, then `destroyNode` on every member of this level (the
membership list is cleared afterwards, which destroys no node). -/
def clearNodesInternal (cs : List GNode) : List Nat :=
  clearNodesPhase1 cs ++ cs.map GNode.idOf

mutual
/-- All node ids in a member's subtree, the member's own id first. -/
def subtreeIds : GNode → List Nat
  | GNode.node i => [i]
  | GNode.group i cs => i :: subtreeIdsList cs

/-- All node ids of a member list, in order. -/
def subtreeIdsList : List GNode → List Nat
  | [] => []
  | c :: rest => subtreeIds c ++ subtreeIdsList rest
end

/-! ## Naming
`NodeCollection::checkNodeName` (lines 435-502), `NodeCollection::initNodeName`
(lines 504-530), `NodeCollection::addNode` (161-168) and the membership part of
`removeNode` (172-192).  Script names are sequences of characters; the numeric
suffix written by `std::stringstream << no` is rendered in decimal. -/

def decChar (d : Nat) : Char := Char.ofNat (48 + d)

/-- Decimal rendering of a natural number (most significant digit first), as
`std::stringstream` prints an `int`; fuel-driven so it evaluates by `decide`. -/
def natToDecAux : Nat → Nat → List Char
  | 0, _ => []
  | fuel + 1, n => if n < 10 then [decChar n] else natToDecAux fuel (n / 10) ++ [decChar (n % 10)]

def natToDec (n : Nat) : List Char := natToDecAux (n + 1) n

/-- Decimal value of a character sequence; parse-back used only in proofs. -/
def decVal (cs : List Char) : Nat := cs.foldl (fun a c => 10 * a + (c.toNat - 48)) 0

structure NNode where
  id : Nat
  name : List Char
deriving DecidableEq

inductive NameErr where
  | invalidName
  | paramConflict
  | nameExists
deriving DecidableEq

/-- Modelled from the spec: `NATRON_PYTHON_NAMESPACE::makeNameScriptFriendly`
is outside this source file; the spec describes it as removing any
non-alphanumeric characters from the name. -/
def makeNameScriptFriendly (s : List Char) : List Char := s.filter Char.isAlphanum

/-- The `*it != node` pointer comparison of the collision loop: `excl = none`
embeds the null `NodeConstPtr`, which equals no member. -/
def exclOk (excl : Option Nat) (m : NNode) : Bool :=
  match excl with
  | none => true
  | some e => decide (e ≠ m.id)

/-- The membership scan of the collision loop: some member other than `excl`
carries the candidate name. -/
def nameTaken (nodes : List NNode) (excl : Option Nat) (nm : List Char) : Bool :=
  nodes.any (fun m => exclOk excl m && m.name == nm)

/-- The `do ... while (foundNodeWithName)` loop of `checkNodeName`: on a
collision either throw (when `errorIfExists` or not `appendDigit`) or bump the
counter and rebuild `cpy << no`.  The fuel argument only bounds the iteration
count; `checkNodeName` passes enough fuel that it never runs out (proved
below), so `none` is unreachable. -/
def checkLoop (nodes : List NNode) (excl : Option Nat) (cpy : List Char)
    (appendDigit errorIfExists : Bool) :
    Nat → Nat → List Char → Option (Except NameErr (List Char))
  | 0, _, _ => none
  | fuel + 1, no, cur =>
      if nameTaken nodes excl cur then
        if errorIfExists || !appendDigit then some (Except.error NameErr.nameExists)
        else checkLoop nodes excl cpy appendDigit errorIfExists fuel (no + 1)
          (cpy ++ natToDec (no + 1))
      else some (Except.ok cur)

/-- The group-parameter scan of `checkNodeName`: some knob of the enclosing
group carries the normalized candidate as its script-name. -/
def knobNameConflict (groupKnobNames : List (List Char)) (cpy : List Char) : Bool :=
  groupKnobNames.any (fun k => k == cpy)

/-- Embedding of `NodeCollection::checkNodeName`.  `groupKnobNames` holds the
group's parameter script-names when this collection is a `NodeGroup` (empty
otherwise); errors embed the three `std::runtime_error` throws. -/
def checkNodeName (nodes : List NNode) (groupKnobNames : List (List Char)) (excl : Option Nat)
    (baseName : List Char) (appendDigit errorIfExists : Bool) :
    Option (Except NameErr (List Char)) :=
  if baseName = [] then some (Except.error NameErr.invalidName)
  else
    let cpy := makeNameScriptFriendly baseName
    if cpy = [] then some (Except.error NameErr.invalidName)
    else if knobNameConflict groupKnobNames cpy then some (Except.error NameErr.paramConflict)
    else
      checkLoop nodes excl cpy appendDigit errorIfExists (nodes.length + 1) 1
        (cpy ++ (if appendDigit then natToDec 1 else []))

/-- The `PLUGINID_NATRON_OUTPUT` constant of the headers, used only as an
opaque token compared against plugin ids. -/
def PLUGINID_NATRON_OUTPUT : String := "fr.inria.built-in.Output"

/-- The trailing-suffix strip of `initNodeName`: drop the last three characters
when the label has more than three characters and they read "OFX"
(`baseName[size-1] == 'X' && baseName[size-2] == 'F' && baseName[size-3] == 'O'`). -/
def stripLabelOFX (label : List Char) : List Char :=
  if label.length > 3 ∧ label.reverse.take 3 = ['X', 'F', 'O'] then
    (label.reverse.drop 3).reverse
  else label

/-- Embedding of `NodeCollection::initNodeName`: non output-terminal plugins
always append a digit; the output-terminal plugin first tries without a digit
and falls back to the digit-appending call if that throws. -/
def initNodeName (nodes : List NNode) (groupKnobNames : List (List Char)) (pluginID : String)
    (pluginLabel : List Char) : Option (Except NameErr (List Char)) :=
  let baseName := stripLabelOFX pluginLabel
  if pluginID ≠ PLUGINID_NATRON_OUTPUT then
    checkNodeName nodes groupKnobNames none baseName true false
  else
    match checkNodeName nodes groupKnobNames none baseName false false with
    | some (Except.ok nm) => some (Except.ok nm)
    | some (Except.error _) => checkNodeName nodes groupKnobNames none baseName true false
    | none => none

/-- Embedding of `NodeCollection::addNode`: appends to the membership list
without any uniqueness check. -/
def addNode (nodes : List NNode) (n : NNode) : List NNode := nodes ++ [n]

/-- Membership effect of `NodeCollection::removeNode`: erase the first entry
whose identity matches; a null node is a no-op. -/
def removeNodeFromList (nodes : List NNode) (p : Option Nat) : List NNode :=
  match p with
  | none => nodes
  | some q => nodes.eraseP (fun m => m.id == q)

/-- One structural step on a collection's membership under the spec's naming
protocol: an `addNode` whose node's script-name was produced by a successful
`checkNodeName` call against the membership at the time of the add (callers
resolve the name before constructing the node), or any `removeNode`. -/
inductive NCStep (knobs : List (List Char)) : List NNode → List NNode → Prop where
  | add (s : List NNode) (base : List Char) (appendDigit errorIfExists : Bool)
      (nm : List Char) (i : Nat)
      (h : checkNodeName s knobs none base appendDigit errorIfExists = some (Except.ok nm)) :
      NCStep knobs s (addNode s ⟨i, nm⟩)
  | remove (s : List NNode) (p : Option Nat) : NCStep knobs s (removeNodeFromList s p)

/-- Decimal key of a member's name relative to the base `cpy`; a member whose
name is a future candidate `cpy ++ natToDec k` has key `k`. -/
def candKey (cpy nm : List Char) : Nat := decVal (nm.drop cpy.length)

/-- Bool predicate (proof device): the member can still collide with a
candidate `cpy ++ natToDec k` for some `k ≥ no`. -/
def isFutureCand (excl : Option Nat) (cpy : List Char) (no : Nat) (m : NNode) : Bool :=
  exclOk excl m
    && (m.name == cpy ++ natToDec (candKey cpy m.name))
    && decide (no ≤ candKey cpy m.name)

/-! ## Membership removal and derived group lists
`NodeCollection::removeNode` (lines 172-192) and `NodeGroup::onNodeRemoved`
(lines 1057-1072): nodes are identified by their pointer, embedded as an id;
a `GroupState` carries the membership list plus the group's derived input and
output lists of `NodeGroupPrivate`. -/

structure GroupState where
  members : List Nat
  inputs : List Nat
  outputs : List Nat
deriving DecidableEq

/-- Embedding of `NodeGroup::onNodeRemoved`: erase the first matching entry of
the derived input list, then the first matching entry of the derived output
list. -/
def onNodeRemoved (st : GroupState) (p : Nat) : GroupState :=
  { st with
    inputs := st.inputs.eraseP (fun i => i == p)
    outputs := st.outputs.eraseP (fun i => i == p) }

/-- Embedding of `NodeCollection::removeNode` acting on a group's state: a
null node returns immediately; otherwise the first matching membership entry
is erased and the `onNodeRemoved` hook runs (also when nothing was erased). -/
def removeNode (st : GroupState) (p : Option Nat) : GroupState :=
  match p with
  | none => st
  | some q => onNodeRemoved { st with members := st.members.eraseP (fun i => i == q) } q

/-! ## Group wiring: autoConnectNodes
`NodeCollection::autoConnectNodes` (lines 630-723).  The node capabilities the
heuristic queries come from the external `Node` interface and are carried as
data: `maxInputCount`, `isOutputNode`, and `preferredInput`
(`getPreferredInputForConnection`; `none` embeds its -1 result).  The wiring
state maps a (consumer id, input slot) pair to the id of the node feeding it. -/

structure WNode where
  id : Nat
  maxInputCount : Nat
  isOutputNode : Bool
  preferredInput : Option Nat
deriving DecidableEq

abbrev Wires : Type := List ((Nat × Nat) × Nat)

def wireLookup (w : Wires) (c i : Nat) : Option Nat :=
  ((List.find? (fun e => e.1.1 == c && e.1.2 == i)) w).map (fun e => e.2)

def wireErase (w : Wires) (c i : Nat) : Wires :=
  (List.filter (fun e => !(e.1.1 == c && e.1.2 == i))) w

/-- Modelled from the spec: `Node::swapInput(input, index)` of the consumed
Node interface connects `inp` at slot `i` of consumer `c`, replacing whatever
was connected there. -/
def swapInputW (w : Wires) (c i inp : Nat) : Wires :=
  (((c, i), inp) :: wireErase w c i : List ((Nat × Nat) × Nat))

/-- Modelled from the spec: `Node::disconnectInput(node)` of the consumed Node
interface disconnects the first input slot currently fed by `target`. -/
def disconnectInputW (w : Wires) (cNode : WNode) (target : Nat) : Wires :=
  match (List.range cNode.maxInputCount).find?
      (fun i => wireLookup w cNode.id i == some target) with
  | some i => wireErase w cNode.id i
  | none => w

structure Graph where
  nodes : List WNode
  wires : Wires
deriving DecidableEq

/-- Modelled from the spec: `Node::getOutputs` of the consumed Node interface
returns, for each node consuming `sel`'s output, the list of its input slots
fed by `sel`. -/
def getOutputs (g : Graph) (sel : WNode) : List (WNode × List Nat) :=
  g.nodes.filterMap (fun c =>
    let slots := (List.range c.maxInputCount).filter
      (fun i => wireLookup g.wires c.id i == some sel.id)
    if slots.isEmpty then none else some (c, slots))

/-- Embedding of `NodeCollection::autoConnectNodes`: the two failure
preconditions, the `connectAsInput` decision, and the two connection branches;
in the splice branch every consumer of `selected` is rewired to `created`
before `created`'s preferred input is queried. -/
def autoConnectNodes (g : Graph) (selected created : WNode) : Bool × Graph :=
  if selected.maxInputCount == 0 && created.maxInputCount == 0 then (false, g)
  else if selected.isOutputNode && created.isOutputNode then (false, g)
  else
    let connectAsInput :=
      if selected.isOutputNode then true
      else if created.isOutputNode then false
      else if created.maxInputCount == 0 then true
      else false
    if connectAsInput then
      match selected.preferredInput with
      | some slot => (true, { g with wires := swapInputW g.wires selected.id slot created.id })
      | none => (false, g)
    else
      let spliceWires :=
        (getOutputs g selected).foldl (fun w oc =>
          oc.2.foldl (fun w2 slot => swapInputW w2 oc.1.id slot created.id)
            (disconnectInputW w oc.1 selected.id)) g.wires
      let g1 :=
        if !created.isOutputNode then { g with wires := spliceWires }
        else g
      match created.preferredInput with
      | some slot => (true, { g1 with wires := swapInputW g1.wires created.id slot selected.id })
      | none => (false, g1)

/-! ## Serialization restore
The static `restoreInput` (lines 1619-1686), `restoreInputs` (1688-1699),
`NodeCollection::findSerializedNodeWithScriptName` (1594-1616) and
`NodeCollection::createNodesFromSerialization` (1743-1846).  The external
factory `appPTR->createNodeForProjectLoading` is a parameter; a created node
carries the capability data the restore code queries (plugin id, loaded major
version, script-name, input labels, and the per-slot mask flags whose length
is the node's `getMaxInputCount`). -/

structure SRecord where
  pluginID : String
  pluginMajorVersion : Int
  scriptName : String
  inputs : List (String × String)
  masks : List (String × String)
deriving DecidableEq

structure CNode where
  id : Nat
  pluginID : String
  majorVersion : Int
  scriptName : String
  inputLabels : List String
  maskFlags : List Bool
deriving DecidableEq

/-- The `PLUGINID_NATRON_STUB` constant of the headers, an opaque token. -/
def PLUGINID_NATRON_STUB : String := "fr.inria.built-in.Stub"

/-- Modelled from the spec: `Node::getInputNumberFromLabel` of the consumed
Node interface returns the index of the input slot carrying the label, -1 when
no slot does. -/
def getInputNumberFromLabel (node : CNode) (label : String) : Int :=
  match node.inputLabels.findIdx? (fun l => l == label) with
  | some i => (i : Int)
  | none => -1

/-- The inner mask search of `restoreInput` (lines 1649-1662): walk the slots
from position `i`; at the first mask-capable slot, remap `index` to that slot
when the running `maskIndex` (still 0) equals it, and break out of the loop in
either case (the `++maskIndex` is immediately followed by `break`). -/
def maskIndexLoop : List Bool → Nat → Int → Int → Int
  | [], _, _, index => index
  | f :: rest, i, maskIndex, index =>
      if f then (if maskIndex = index then (i : Int) else index)
      else maskIndexLoop rest (i + 1) maskIndex index

/-- The whole mask-index remap of `restoreInput`: the loop starts at slot 0
with `maskIndex = 0`. -/
def maskRemapIndex (flags : List Bool) (index : Int) : Int :=
  maskIndexLoop flags 0 0 index

/-- Digit-run parse used by the numeric-index fallback; reuses the decimal
value function of the naming section. -/
def parseNatChars (cs : List Char) : Option Nat :=
  if cs = [] then none
  else if cs.all (fun c => c.isDigit) then some (decVal cs) else none

/-- Modelled from the spec: `QString::toInt` of the consumed Qt boundary
(older persisted formats encoded mask ports by index): an optional minus sign
followed by decimal digits; `none` embeds its `ok = false` outcome. -/
def parseIntChars : List Char → Option Int
  | [] => none
  | '-' :: rest => (parseNatChars rest).map (fun n => -(n : Int))
  | cs => (parseNatChars cs).map (fun n => (n : Int))

/-- The slot-index resolution of `restoreInput`: a recognized input label
wins; otherwise the label is parsed as a numeric index (`QString::toInt`,
yielding -1 on failure), and for mask inputs the numeric index then runs
through the mask search loop. -/
def restoreInputResolvedIndex (node : CNode) (inputLabel : String) (isMaskInput : Bool) : Int :=
  let index := if inputLabel == "" then -1 else getInputNumberFromLabel node inputLabel
  if index != -1 then index
  else
    let parsed :=
      match parseIntChars inputLabel.data with
      | some v => v
      | none => -1
    if isMaskInput then maskRemapIndex node.maskFlags parsed else parsed

/-- Embedding of `findSerializedNodeWithScriptName`: exact, rename-proof
resolution against the batch's record-to-node map first, then (only when
allowed) a plain name lookup over the whole collection. -/
def findSerializedNodeWithScriptName (nodeScriptName : String)
    (createdNodes : List (SRecord × CNode)) (allNodesInGroup : List CNode)
    (allowSearchInAllNodes : Bool) : Option CNode :=
  match createdNodes.find? (fun p => p.1.scriptName == nodeScriptName) with
  | some p => some p.2
  | none =>
      if allowSearchInAllNodes then
        allNodesInGroup.find? (fun n => n.scriptName == nodeScriptName)
      else none

/-- Embedding of the static `restoreInput`: an empty referenced name returns
immediately; the slot index is resolved, the referenced node is looked up, an
unresolved reference is skipped (only logged), and a resolved one is wired via
`swapInput` (the range guard stands in for `Node::swapInput` rejecting an
invalid index). -/
def restoreInput (node : CNode) (inputLabel inputNodeScriptName : String)
    (createdNodes : List (SRecord × CNode)) (allNodesInGroup : List CNode)
    (allowSearchInAllNodes isMaskInput : Bool) (w : Wires) : Wires :=
  if inputNodeScriptName == "" then w
  else
    let index := restoreInputResolvedIndex node inputLabel isMaskInput
    match findSerializedNodeWithScriptName inputNodeScriptName createdNodes
        allNodesInGroup allowSearchInAllNodes with
    | none => w
    | some found =>
        if 0 ≤ index ∧ index < (node.maskFlags.length : Int) then
          swapInputW w node.id index.toNat found.id
        else w

/-- Embedding of the static `restoreInputs`: resolve every entry of the
input-name map in turn. -/
def restoreInputs (node : CNode) (inputsMap : List (String × String))
    (createdNodes : List (SRecord × CNode)) (allNodesInGroup : List CNode)
    (allowSearchInAllNodes isMaskInputs : Bool) (w : Wires) : Wires :=
  inputsMap.foldl
    (fun w2 kv => restoreInput node kv.1 kv.2 createdNodes allNodesInGroup
      allowSearchInAllNodes isMaskInputs w2) w

/-- One phase-one step of `createNodesFromSerialization`: create the node via
the external factory and push it to `createdNodesOut`; a failed creation sets
`hasError`, a stub substitution sets `hasError`, and a major version mismatch
only logs a warning, leaving `hasError` untouched. -/
def createNodeStep (factory : SRecord → Option CNode)
    (acc : Bool × List (Option CNode) × List (SRecord × CNode)) (r : SRecord) :
    Bool × List (Option CNode) × List (SRecord × CNode) :=
  match factory r with
  | none => (true, acc.2.1 ++ [none], acc.2.2)
  | some node =>
      let hasError := if node.pluginID == PLUGINID_NATRON_STUB then true else acc.1
      (hasError, acc.2.1 ++ [some node], acc.2.2 ++ [(r, node)])

structure CreateResult where
  success : Bool
  createdNodesOut : List (Option CNode)
  wires : Wires
deriving DecidableEq

/-- Embedding of `NodeCollection::createNodesFromSerialization`: phase one
instantiates every record and accumulates the record-to-node map; phase two
restores the input and mask maps of every created node against that map (and,
when permitted, the whole collection).  The knob-link pass
(`restoreLinksRecursive`) delegates to the external `restoreKnobsLinks` and
touches neither `hasError` nor the input wiring.  The call returns the
negation of `hasError` together with the nodes produced so far — it never
rolls back. -/
def createNodesFromSerialization (factory : SRecord → Option CNode)
    (existingNodes : List CNode) (connectToExternalNodes : Bool)
    (serializedNodes : List SRecord) (w0 : Wires) : CreateResult :=
  let p := serializedNodes.foldl (createNodeStep factory) (false, [], [])
  let localCreatedNodes := p.2.2
  let allNodesInGroup := existingNodes ++ localCreatedNodes.map (fun q => q.2)
  let w1 := localCreatedNodes.foldl
    (fun w q =>
      restoreInputs q.2 q.1.masks localCreatedNodes allNodesInGroup
        connectToExternalNodes true
        (restoreInputs q.2 q.1.inputs localCreatedNodes allNodesInGroup
          connectToExternalNodes false w)) w0
  { success := !p.1, createdNodesOut := p.2.1, wires := w1 }

theorem recompInternal_append (b : Bool) (xs ys : List FNode) (st : Int × Int) :
    recomputeFrameRangeForAllReadersInternal b (xs ++ ys) st =
      recomputeFrameRangeForAllReadersInternal b ys
        (recomputeFrameRangeForAllReadersInternal b xs st) := by
  induction xs generalizing st with
  | nil => simp [recomputeFrameRangeForAllReadersInternal]
  | cons c rest ih =>
      cases c with
      | reader ok rmin rmax =>
          simp only [List.cons_append, recomputeFrameRangeForAllReadersInternal]
          exact ih _
      | group cs =>
          simp only [List.cons_append, recomputeFrameRangeForAllReadersInternal]
          exact ih _
      | other =>
          simp only [List.cons_append, recomputeFrameRangeForAllReadersInternal]
          exact ih _

theorem decVal_append_singleton (xs : List Char) (c : Char) :
    decVal (xs ++ [c]) = 10 * decVal xs + (c.toNat - 48) := by
  simp [decVal, List.foldl_append]

theorem decChar_toNat (d : Nat) (h : d < 10) : (decChar d).toNat = 48 + d := by
  interval_cases d <;> decide

theorem decVal_natToDecAux : ∀ fuel n, n < fuel → decVal (natToDecAux fuel n) = n := by
  intro fuel
  induction fuel with
  | zero => intro n h; omega
  | succ f ih =>
      intro n h
      by_cases hn : n < 10
      · have : (decChar n).toNat = 48 + n := decChar_toNat n hn
        simp [natToDecAux, hn, decVal, this]
      · have hdiv : n / 10 < n := Nat.div_lt_self (by omega) (by omega)
        have hrec := ih (n / 10) (by omega)
        have hmod : n % 10 < 10 := Nat.mod_lt _ (by omega)
        simp only [natToDecAux, if_neg hn]
        rw [decVal_append_singleton, hrec, decChar_toNat _ hmod]
        omega

theorem decVal_natToDec (n : Nat) : decVal (natToDec n) = n :=
  decVal_natToDecAux (n + 1) n (Nat.lt_succ_self n)

theorem natToDec_injective : Function.Injective natToDec := by
  intro a b h
  rw [← decVal_natToDec a, ← decVal_natToDec b, h]

/-- C1 (counterexample): three top-level readers with ranges [1,10], [5,20],
[0,3] aggregate to [0,3], not [0,20] — every top-level reader overwrites the
accumulator because `setFrameRange` stays true at this level. -/
theorem C1_counterexample :
    recomputeFrameRangeForAllReaders 0 0
      [FNode.reader true 1 10, FNode.reader true 5 20, FNode.reader true 0 3] = (0, 3)
    ∧ ((0 : Int), (3 : Int)) ≠ ((0 : Int), (20 : Int)) := by
  constructor
  · norm_num [recomputeFrameRangeForAllReaders, recomputeFrameRangeForAllReadersInternal,
      INT_MIN, INT_MAX]
  · decide

/-- C1 (amended): `recomputeFrameRangeForAllReaders` runs the whole top level
with `setFrameRange = true`, so each top-level reader with a valid range
overwrites the accumulated `[firstFrame, lastFrame]` verbatim — the last
top-level reader wins; only readers reached through a nested group (where the
recursion passes `setFrameRange = false`) widen the accumulator by min/max. -/
theorem C1_amended_overwrite (cs : List FNode) (f l a b : Int)
    (ha : a ≠ INT_MIN) (hb : b ≠ INT_MAX) :
    recomputeFrameRangeForAllReaders f l (cs ++ [FNode.reader true a b]) = (a, b)
    ∧ (∀ st : Int × Int,
        recomputeFrameRangeForAllReadersInternal false [FNode.reader true a b] st
          = (min st.1 a, max st.2 b)) := by
  constructor
  · rw [recomputeFrameRangeForAllReaders, recompInternal_append]
    simp [recomputeFrameRangeForAllReadersInternal, ha, hb]
  · intro st
    simp [recomputeFrameRangeForAllReadersInternal, ha, hb]

/-- C1 (witness): the amended overwrite behaviour at a concrete input. -/
theorem C1_amended_overwrite_witness :
    recomputeFrameRangeForAllReaders 0 0
        ([FNode.reader true 1 10, FNode.reader true 5 20] ++ [FNode.reader true 0 3]) = (0, 3) :=
  (C1_amended_overwrite [FNode.reader true 1 10, FNode.reader true 5 20] 0 0 0 3
      (by decide) (by decide)).1

/-- C2 (code behaviour): `getNodes_recursive` with `onlyActive = true` returns
the empty list even for a non-empty collection, because the loop body executes
`continue` for every member before appending it or collecting its group for
recursion; with `onlyActive = false` the flattening does contain the members
and nested-group contents. -/
theorem C2_code_evaluation :
    getNodes_recursive true [GNode.node 0] = []
    ∧ getNodes_recursive false [GNode.group 1 [GNode.node 2]]
        = [GNode.group 1 [GNode.node 2], GNode.node 2] := by
  constructor
  · simp [getNodes_recursive]
  · simp [getNodes_recursive, getNodesRecursiveGroups, getNodesRecursiveChild]

theorem clearNodesInternal_perm :
    ∀ cs : List GNode, (clearNodesInternal cs).Perm (subtreeIdsList cs)
  | [] => by simp [clearNodesInternal, clearNodesPhase1, subtreeIdsList]
  | GNode.node i :: rest => by
      have ih := clearNodesInternal_perm rest
      simp only [clearNodesInternal] at ih
      show List.Perm (clearNodesPhase1 (GNode.node i :: rest)
        ++ (GNode.node i :: rest).map GNode.idOf) (subtreeIdsList (GNode.node i :: rest))
      simp only [clearNodesPhase1, subtreeIdsList, subtreeIds, List.map_cons, GNode.idOf]
      exact List.perm_middle.trans (ih.cons i)
  | GNode.group i gs :: rest => by
      have ih1 := clearNodesInternal_perm gs
      have ih2 := clearNodesInternal_perm rest
      simp only [clearNodesInternal] at ih1 ih2
      show List.Perm (clearNodesPhase1 (GNode.group i gs :: rest)
        ++ (GNode.group i gs :: rest).map GNode.idOf)
        (subtreeIdsList (GNode.group i gs :: rest))
      simp only [clearNodesPhase1, subtreeIdsList, subtreeIds, List.map_cons, GNode.idOf]
      refine List.perm_middle.trans ?_
      have hassoc :
          ((clearNodesPhase1 gs ++ gs.map GNode.idOf) ++ clearNodesPhase1 rest)
              ++ rest.map GNode.idOf
            = (clearNodesPhase1 gs ++ gs.map GNode.idOf)
              ++ (clearNodesPhase1 rest ++ rest.map GNode.idOf) := by
        simp [List.append_assoc]
      rw [hassoc]
      exact (ih1.append ih2).cons i

theorem mem_clearNodesPhase1_of_mem_group {gid : Nat} {gcs : List GNode} {mid : Nat} :
    ∀ {cs : List GNode}, GNode.group gid gcs ∈ cs → mid ∈ clearNodesInternal gcs →
      mid ∈ clearNodesPhase1 cs := by
  intro cs
  induction cs with
  | nil => intro h; exact absurd h (List.not_mem_nil _)
  | cons c rest ih =>
      intro hmem hmid
      rcases List.mem_cons.mp hmem with heq | htail
      · subst heq
        simp only [clearNodesPhase1, List.mem_append]
        left
        simpa [clearNodesInternal] using hmid
      · cases c with
        | node j => simpa [clearNodesPhase1] using ih htail hmid
        | group j js =>
            simp only [clearNodesPhase1, List.mem_append]
            right
            exact ih htail hmid

/-- C10: on a collection whose members carry distinct ids, the `destroyNode`
trace of `clearNodesInternal` destroys every node inside a nested group's
subtree strictly before it destroys the nested group node itself: phase one
recursively tears down nested groups' contents, phase two only then issues
`destroyNode` on the members of this level. -/
theorem C10_teardown_order (cs : List GNode) (gid : Nat) (gcs : List GNode) (mid : Nat)
    (hg : GNode.group gid gcs ∈ cs) (hm : mid ∈ subtreeIdsList gcs)
    (hnd : (subtreeIdsList cs).Nodup) :
    ∀ i j, (clearNodesInternal cs).get? i = some mid →
      (clearNodesInternal cs).get? j = some gid → i < j := by
  intro i j hi hj
  have hperm := clearNodesInternal_perm cs
  have hcount : ∀ x : Nat, (clearNodesInternal cs).count x ≤ 1 := by
    intro x
    rw [hperm.count_eq]
    exact List.nodup_iff_count_le_one.mp hnd x
  have hmidP : mid ∈ clearNodesPhase1 cs :=
    mem_clearNodesPhase1_of_mem_group hg ((clearNodesInternal_perm gcs).mem_iff.mpr hm)
  have hgidS : gid ∈ cs.map GNode.idOf := by
    exact List.mem_map.mpr ⟨GNode.group gid gcs, hg, rfl⟩
  have hsplit : clearNodesInternal cs = clearNodesPhase1 cs ++ cs.map GNode.idOf := rfl
  have hmidS : mid ∉ cs.map GNode.idOf := by
    intro hco
    have h2 : 2 ≤ (clearNodesInternal cs).count mid := by
      rw [hsplit, List.count_append]
      have c1 : 1 ≤ (clearNodesPhase1 cs).count mid := List.count_pos_iff.mpr hmidP
      have c2 : 1 ≤ (cs.map GNode.idOf).count mid := List.count_pos_iff.mpr hco
      omega
    exact absurd (le_trans h2 (hcount mid)) (by omega)
  have hgidP : gid ∉ clearNodesPhase1 cs := by
    intro hco
    have h2 : 2 ≤ (clearNodesInternal cs).count gid := by
      rw [hsplit, List.count_append]
      have c1 : 1 ≤ (clearNodesPhase1 cs).count gid := List.count_pos_iff.mpr hco
      have c2 : 1 ≤ (cs.map GNode.idOf).count gid := List.count_pos_iff.mpr hgidS
      omega
    exact absurd (le_trans h2 (hcount gid)) (by omega)
  have hiLt : i < (clearNodesPhase1 cs).length := by
    by_contra hge
    push_neg at hge
    rw [hsplit, List.get?_append_right hge] at hi
    exact hmidS (List.get?_mem hi)
  have hjGe : (clearNodesPhase1 cs).length ≤ j := by
    by_contra hlt
    push_neg at hlt
    rw [hsplit, List.get?_append hlt] at hj
    exact hgidP (List.get?_mem hj)
  omega

/-- C10 (witness): teardown ordering on a concrete one-group collection. -/
theorem C10_teardown_order_witness :
    GNode.group 1 [GNode.node 2] ∈ [GNode.group 1 [GNode.node 2]]
    ∧ (2 : Nat) ∈ subtreeIdsList [GNode.node 2]
    ∧ (subtreeIdsList [GNode.group 1 [GNode.node 2]]).Nodup
    ∧ (0 : Nat) < 1 := by
  refine ⟨List.mem_singleton.mpr rfl, by simp [subtreeIdsList, subtreeIds], ?_, ?_⟩
  · simp [subtreeIdsList, subtreeIds]
  · exact C10_teardown_order [GNode.group 1 [GNode.node 2]] 1 [GNode.node 2] 2
      (List.mem_singleton.mpr rfl) (by simp [subtreeIdsList, subtreeIds])
      (by simp [subtreeIdsList, subtreeIds]) 0 1
      (by simp [clearNodesInternal, clearNodesPhase1, subtreeIdsList, subtreeIds, GNode.idOf])
      (by simp [clearNodesInternal, clearNodesPhase1, subtreeIdsList, subtreeIds, GNode.idOf])

theorem countP_lt_of_witness {α : Type} (p q : α → Bool) (l : List α)
    (himp : ∀ a ∈ l, q a = true → p a = true) (a : α) (ha : a ∈ l) (hpa : p a = true)
    (hqa : q a = false) : l.countP q < l.countP p := by
  induction l with
  | nil => cases ha
  | cons b t ih =>
      rw [List.countP_cons, List.countP_cons]
      rcases List.mem_cons.mp ha with rfl | hat
      · have hle : t.countP q ≤ t.countP p :=
          List.countP_mono_left (fun x hx h => himp x (List.mem_cons_of_mem _ hx) h)
        simp only [hpa, hqa, if_true]
        simp only [Bool.false_eq_true, if_false]
        omega
      · have hstep := ih (fun x hx h => himp x (List.mem_cons_of_mem _ hx) h) hat
        have hhead : (if q b then 1 else 0) ≤ (if p b then 1 else 0) := by
          by_cases hqb : q b = true
          · have hpb := himp b (List.mem_cons_self _ _) hqb
            simp [hqb, hpb]
          · simp [hqb]
        omega

theorem checkLoop_ne_none (nodes : List NNode) (excl : Option Nat) (cpy : List Char) :
    ∀ fuel no, nodes.countP (isFutureCand excl cpy no) < fuel →
      checkLoop nodes excl cpy true false fuel no (cpy ++ natToDec no) ≠ none := by
  intro fuel
  induction fuel with
  | zero => intro no h; omega
  | succ f ih =>
      intro no hcount
      simp only [checkLoop]
      by_cases htaken : nameTaken nodes excl (cpy ++ natToDec no) = true
      · simp only [htaken, if_true, Bool.or_self, Bool.not_true]
        have hwit : ∃ m ∈ nodes, exclOk excl m = true ∧ m.name = cpy ++ natToDec no := by
          have h1 := List.any_eq_true.mp htaken
          obtain ⟨m, hm, hprop⟩ := h1
          refine ⟨m, hm, ?_, ?_⟩
          · have := Bool.and_elim_left hprop
            exact this
          · exact beq_iff_eq.mp (Bool.and_elim_right hprop)
        obtain ⟨m, hm, hexcl, hname⟩ := hwit
        have hkey : candKey cpy m.name = no := by
          rw [hname, candKey, List.drop_left, decVal_natToDec]
        have hp : isFutureCand excl cpy no m = true := by
          simp only [isFutureCand, Bool.and_eq_true]
          refine ⟨⟨hexcl, ?_⟩, ?_⟩
          · rw [hkey, ← hname]
            exact beq_iff_eq.mpr rfl
          · simp [hkey]
        have hq : isFutureCand excl cpy (no + 1) m = false := by
          simp only [isFutureCand, hkey]
          simp
        have himp : ∀ a ∈ nodes, isFutureCand excl cpy (no + 1) a = true →
            isFutureCand excl cpy no a = true := by
          intro a _ h
          simp only [isFutureCand, Bool.and_eq_true, decide_eq_true_eq] at h ⊢
          exact ⟨h.1, by omega⟩
        have hlt := countP_lt_of_witness _ _ nodes himp m hm hp hq
        exact ih (no + 1) (by omega)
      · simp only [Bool.not_eq_true] at htaken
        simp [htaken]

theorem checkLoop_ok_shape (nodes : List NNode) (excl : Option Nat) (cpy : List Char)
    (appendDigit errorIfExists : Bool) :
    ∀ fuel no cur nm,
      checkLoop nodes excl cpy appendDigit errorIfExists fuel no cur = some (Except.ok nm) →
        nameTaken nodes excl nm = false ∧ (nm = cur ∨ ∃ k, no < k ∧ nm = cpy ++ natToDec k) := by
  intro fuel
  induction fuel with
  | zero => intro no cur nm h; simp [checkLoop] at h
  | succ f ih =>
      intro no cur nm h
      simp only [checkLoop] at h
      by_cases htaken : nameTaken nodes excl cur = true
      · rw [if_pos htaken] at h
        by_cases hflag : (errorIfExists || !appendDigit) = true
        · rw [if_pos hflag] at h
          cases h
        · rw [if_neg hflag] at h
          obtain ⟨hfree, hshape⟩ := ih (no + 1) _ nm h
          refine ⟨hfree, Or.inr ?_⟩
          rcases hshape with rfl | ⟨k, hk, rfl⟩
          · exact ⟨no + 1, by omega, rfl⟩
          · exact ⟨k, by omega, rfl⟩
      · rw [if_neg htaken] at h
        injection h with h
        injection h with h
        subst h
        exact ⟨by simpa using htaken, Or.inl rfl⟩

theorem checkLoop_no_error (nodes : List NNode) (excl : Option Nat) (cpy : List Char) :
    ∀ fuel no cur e,
      checkLoop nodes excl cpy true false fuel no cur ≠ some (Except.error e) := by
  intro fuel
  induction fuel with
  | zero => intro no cur e h; simp [checkLoop] at h
  | succ f ih =>
      intro no cur e h
      simp only [checkLoop] at h
      by_cases htaken : nameTaken nodes excl cur = true
      · rw [if_pos htaken] at h
        simp only [Bool.or_self, Bool.not_true] at h
        exact ih _ _ _ (by simpa using h)
      · rw [if_neg htaken] at h
        cases h

theorem checkLoop_one_step (nodes : List NNode) (excl : Option Nat) (cpy : List Char)
    (appendDigit errorIfExists : Bool) (hflag : (errorIfExists || !appendDigit) = true)
    (fuel no : Nat) (cur : List Char) :
    checkLoop nodes excl cpy appendDigit errorIfExists (fuel + 1) no cur =
      if nameTaken nodes excl cur then some (Except.error NameErr.nameExists)
      else some (Except.ok cur) := by
  simp only [checkLoop, hflag]
  split <;> rfl

/-- C8: `checkNodeName` raises the invalid-name error exactly when the base
name is empty or normalizes to the empty string; the naming-conflict error
exactly when (past those checks) the normalized candidate equals one of the
group's parameter identifiers; the name-exists error exactly when (past those
checks) a member other than the node being named carries the initial candidate
name and `errorIfExists` is true or `appendDigit` is false; in every other
case it succeeds and the produced name collides with no member other than the
node itself. -/
theorem C8_checkNodeName_fails_iff (nodes : List NNode) (knobs : List (List Char))
    (excl : Option Nat) (base : List Char) (appendDigit errorIfExists : Bool) :
    (checkNodeName nodes knobs excl base appendDigit errorIfExists
        = some (Except.error NameErr.invalidName)
      ↔ base = [] ∨ makeNameScriptFriendly base = [])
    ∧ (checkNodeName nodes knobs excl base appendDigit errorIfExists
        = some (Except.error NameErr.paramConflict)
      ↔ base ≠ [] ∧ makeNameScriptFriendly base ≠ []
          ∧ knobNameConflict knobs (makeNameScriptFriendly base) = true)
    ∧ (checkNodeName nodes knobs excl base appendDigit errorIfExists
        = some (Except.error NameErr.nameExists)
      ↔ base ≠ [] ∧ makeNameScriptFriendly base ≠ []
          ∧ knobNameConflict knobs (makeNameScriptFriendly base) = false
          ∧ nameTaken nodes excl
              (makeNameScriptFriendly base ++ if appendDigit then natToDec 1 else []) = true
          ∧ (errorIfExists = true ∨ appendDigit = false))
    ∧ (∀ nm, checkNodeName nodes knobs excl base appendDigit errorIfExists
        = some (Except.ok nm) → nameTaken nodes excl nm = false)
    ∧ checkNodeName nodes knobs excl base appendDigit errorIfExists ≠ none := by
  by_cases hb : base = []
  · have hres : checkNodeName nodes knobs excl base appendDigit errorIfExists
        = some (Except.error NameErr.invalidName) := by
      simp [checkNodeName, hb]
    rw [hres]
    refine ⟨iff_of_true rfl (Or.inl hb), ?_, ?_, ?_, by simp⟩
    · constructor
      · intro h; cases (Option.some.injEq _ _ ▸ h : _)
      · intro h; exact absurd hb h.1
    · constructor
      · intro h; cases (Option.some.injEq _ _ ▸ h : _)
      · intro h; exact absurd hb h.1
    · intro nm h; cases (Option.some.injEq _ _ ▸ h : _)
  by_cases hcpy : makeNameScriptFriendly base = []
  · have hres : checkNodeName nodes knobs excl base appendDigit errorIfExists
        = some (Except.error NameErr.invalidName) := by
      simp [checkNodeName, hb, hcpy]
    rw [hres]
    refine ⟨iff_of_true rfl (Or.inr hcpy), ?_, ?_, ?_, by simp⟩
    · constructor
      · intro h; cases (Option.some.injEq _ _ ▸ h : _)
      · intro h; exact absurd hcpy h.2.1
    · constructor
      · intro h; cases (Option.some.injEq _ _ ▸ h : _)
      · intro h; exact absurd hcpy h.2.1
    · intro nm h; cases (Option.some.injEq _ _ ▸ h : _)
  by_cases hknob : knobNameConflict knobs (makeNameScriptFriendly base) = true
  · have hres : checkNodeName nodes knobs excl base appendDigit errorIfExists
        = some (Except.error NameErr.paramConflict) := by
      simp [checkNodeName, hb, hcpy, hknob]
    rw [hres]
    refine ⟨?_, iff_of_true rfl ⟨hb, hcpy, hknob⟩, ?_, ?_, by simp⟩
    · constructor
      · intro h; cases (Option.some.injEq _ _ ▸ h : _)
      · intro h
        rcases h with h | h
        · exact absurd h hb
        · exact absurd h hcpy
    · constructor
      · intro h; cases (Option.some.injEq _ _ ▸ h : _)
      · intro h
        rw [hknob] at h
        exact absurd h.2.2.1 (by simp)
    · intro nm h; cases (Option.some.injEq _ _ ▸ h : _)
  have hknobf : knobNameConflict knobs (makeNameScriptFriendly base) = false := by
    simpa using hknob
  have hunfold : checkNodeName nodes knobs excl base appendDigit errorIfExists
      = checkLoop nodes excl (makeNameScriptFriendly base) appendDigit errorIfExists
          (nodes.length + 1) 1
          (makeNameScriptFriendly base ++ if appendDigit then natToDec 1 else []) := by
    simp [checkNodeName, hb, hcpy, hknobf]
  by_cases hflag : (errorIfExists || !appendDigit) = true
  · have hstep := checkLoop_one_step nodes excl (makeNameScriptFriendly base)
      appendDigit errorIfExists hflag nodes.length 1
      (makeNameScriptFriendly base ++ if appendDigit then natToDec 1 else [])
    rw [hunfold, hstep]
    have hflagIff : errorIfExists = true ∨ appendDigit = false := by
      rcases Bool.or_eq_true_iff.mp hflag with h | h
      · exact Or.inl h
      · exact Or.inr (by simpa using h)
    by_cases htaken : nameTaken nodes excl
        (makeNameScriptFriendly base ++ if appendDigit then natToDec 1 else []) = true
    · rw [if_pos htaken]
      refine ⟨?_, ?_, iff_of_true rfl ⟨hb, hcpy, hknobf, htaken, hflagIff⟩, ?_, by simp⟩
      · constructor
        · intro h; cases (Option.some.injEq _ _ ▸ h : _)
        · intro h
          rcases h with h | h
          · exact absurd h hb
          · exact absurd h hcpy
      · constructor
        · intro h; cases (Option.some.injEq _ _ ▸ h : _)
        · intro h
          rw [hknobf] at h
          exact absurd h.2.2 (by simp)
      · intro nm h; cases (Option.some.injEq _ _ ▸ h : _)
    · have htf : nameTaken nodes excl
          (makeNameScriptFriendly base ++ if appendDigit then natToDec 1 else []) = false := by
        simpa using htaken
      rw [if_neg htaken]
      refine ⟨?_, ?_, ?_, ?_, by simp⟩
      · constructor
        · intro h; cases (Option.some.injEq _ _ ▸ h : _)
        · intro h
          rcases h with h | h
          · exact absurd h hb
          · exact absurd h hcpy
      · constructor
        · intro h; cases (Option.some.injEq _ _ ▸ h : _)
        · intro h
          rw [hknobf] at h
          exact absurd h.2.2 (by simp)
      · constructor
        · intro h; cases (Option.some.injEq _ _ ▸ h : _)
        · intro h
          rw [htf] at h
          exact absurd h.2.2.2.1 (by simp)
      · intro nm h
        have hnm : nm = makeNameScriptFriendly base
            ++ if appendDigit then natToDec 1 else [] := by
          have := Option.some.injEq _ _ ▸ h
          injection h with h2
          injection h2 with h3
          exact h3.symm
        rw [hnm]
        exact htf
  · have hflags : errorIfExists = false ∧ appendDigit = true := by
      simpa using hflag
    obtain ⟨he, ha⟩ := hflags
    subst he; subst ha
    rw [hunfold]
    refine ⟨?_, ?_, ?_, ?_, ?_⟩
    · constructor
      · intro h
        exact absurd h (checkLoop_no_error nodes excl _ _ _ _ _)
      · intro h
        rcases h with h | h
        · exact absurd h hb
        · exact absurd h hcpy
    · constructor
      · intro h
        exact absurd h (checkLoop_no_error nodes excl _ _ _ _ _)
      · intro h
        rw [hknobf] at h
        exact absurd h.2.2 (by simp)
    · constructor
      · intro h
        exact absurd h (checkLoop_no_error nodes excl _ _ _ _ _)
      · intro h
        rcases h.2.2.2.2 with h1 | h1 <;> simp at h1
    · intro nm h
      exact (checkLoop_ok_shape nodes excl _ true false _ 1 _ nm h).1
    · have hcnt : nodes.countP (isFutureCand excl (makeNameScriptFriendly base) 1)
          < nodes.length + 1 :=
        Nat.lt_succ_of_le (List.countP_le_length _)
      have := checkLoop_ne_none nodes excl (makeNameScriptFriendly base)
        (nodes.length + 1) 1 hcnt
      simpa using this

/-- C8 (witness): concrete run where the produced name is free of collisions. -/
theorem C8_checkNodeName_witness :
    checkNodeName [⟨0, ['a', '1']⟩] [] none ['b'] true true
        = some (Except.ok ['b', '1'])
    ∧ nameTaken [⟨0, ['a', '1']⟩] none ['b', '1'] = false := by
  refine ⟨by rfl, ?_⟩
  exact (C8_checkNodeName_fails_iff [⟨0, ['a', '1']⟩] [] none ['b'] true true).2.2.2.1
    ['b', '1'] (by rfl)

theorem checkNodeName_append_ok (nodes : List NNode) (knobs : List (List Char))
    (excl : Option Nat) (base : List Char) (hb : base ≠ [])
    (hcpy : makeNameScriptFriendly base ≠ [])
    (hknob : knobNameConflict knobs (makeNameScriptFriendly base) = false) :
    ∃ k, 1 ≤ k ∧ checkNodeName nodes knobs excl base true false
        = some (Except.ok (makeNameScriptFriendly base ++ natToDec k))
      ∧ nameTaken nodes excl (makeNameScriptFriendly base ++ natToDec k) = false := by
  have hunfold : checkNodeName nodes knobs excl base true false
      = checkLoop nodes excl (makeNameScriptFriendly base) true false
          (nodes.length + 1) 1 (makeNameScriptFriendly base ++ natToDec 1) := by
    simp [checkNodeName, hb, hcpy, hknob]
  have hcnt : nodes.countP (isFutureCand excl (makeNameScriptFriendly base) 1)
      < nodes.length + 1 := Nat.lt_succ_of_le (List.countP_le_length _)
  have hnn := checkLoop_ne_none nodes excl (makeNameScriptFriendly base)
    (nodes.length + 1) 1 hcnt
  cases hres : checkLoop nodes excl (makeNameScriptFriendly base) true false
      (nodes.length + 1) 1 (makeNameScriptFriendly base ++ natToDec 1) with
  | none => exact absurd hres hnn
  | some r =>
      cases r with
      | error e => exact absurd hres (checkLoop_no_error nodes excl _ _ _ _ _)
      | ok nm =>
          obtain ⟨hfree, hshape⟩ := checkLoop_ok_shape nodes excl _ true false _ 1 _ nm hres
          rcases hshape with rfl | ⟨k, hk, rfl⟩
          · exact ⟨1, le_refl 1, by rw [hunfold, hres], hfree⟩
          · exact ⟨k, by omega, by rw [hunfold, hres], hfree⟩

/-- C6 (counterexample): the label "SharpenFX" ends in "FX" and is long
enough, yet `initNodeName` keeps the suffix (the source only strips a
trailing "OFX"): the produced name is "SharpenFX1", not "Sharpen1". -/
theorem C6_counterexample :
    initNodeName [] [] "com.example.sharpen" ['S', 'h', 'a', 'r', 'p', 'e', 'n', 'F', 'X']
        = some (Except.ok ['S', 'h', 'a', 'r', 'p', 'e', 'n', 'F', 'X', '1'])
    ∧ ['S', 'h', 'a', 'r', 'p', 'e', 'n', 'F', 'X', '1']
        ≠ ['S', 'h', 'a', 'r', 'p', 'e', 'n', '1'] := by
  exact ⟨by rfl, by decide⟩

/-- C6 (amended): `initNodeName` strips a trailing "OFX" (not "FX") from the
plugin label when the label is longer than three characters; plugins whose id
is the output-terminal plugin receive the bare normalized name when it does
not collide, falling back to a numerically suffixed one on collision, while
every other plugin always receives a numerically suffixed, collision-free
name. -/
theorem C6_initNodeName_amended (nodes : List NNode) (pid : String) (label : List Char)
    (hcpy : makeNameScriptFriendly (stripLabelOFX label) ≠ []) :
    ((label.length > 3 ∧ label.reverse.take 3 = ['X', 'F', 'O']) →
        stripLabelOFX label = (label.reverse.drop 3).reverse)
    ∧ (¬(label.length > 3 ∧ label.reverse.take 3 = ['X', 'F', 'O']) →
        stripLabelOFX label = label)
    ∧ (pid ≠ PLUGINID_NATRON_OUTPUT →
        ∃ k, 1 ≤ k ∧ initNodeName nodes [] pid label
            = some (Except.ok (makeNameScriptFriendly (stripLabelOFX label) ++ natToDec k))
          ∧ nameTaken nodes none (makeNameScriptFriendly (stripLabelOFX label) ++ natToDec k)
              = false)
    ∧ (pid = PLUGINID_NATRON_OUTPUT →
        (nameTaken nodes none (makeNameScriptFriendly (stripLabelOFX label)) = false →
          initNodeName nodes [] pid label
            = some (Except.ok (makeNameScriptFriendly (stripLabelOFX label))))
        ∧ (nameTaken nodes none (makeNameScriptFriendly (stripLabelOFX label)) = true →
          ∃ k, 1 ≤ k ∧ initNodeName nodes [] pid label
              = some (Except.ok (makeNameScriptFriendly (stripLabelOFX label) ++ natToDec k))
            ∧ nameTaken nodes none
                (makeNameScriptFriendly (stripLabelOFX label) ++ natToDec k) = false)) := by
  have hbase : stripLabelOFX label ≠ [] := by
    intro h
    rw [h] at hcpy
    simp [makeNameScriptFriendly] at hcpy
  have hknob : knobNameConflict [] (makeNameScriptFriendly (stripLabelOFX label)) = false := by
    simp [knobNameConflict]
  refine ⟨?_, ?_, ?_, ?_⟩
  · intro h
    simp [stripLabelOFX, h]
  · intro h
    simp [stripLabelOFX, h]
  · intro hpid
    have : initNodeName nodes [] pid label
        = checkNodeName nodes [] none (stripLabelOFX label) true false := by
      simp [initNodeName, hpid]
    rw [this]
    exact checkNodeName_append_ok nodes [] none (stripLabelOFX label) hbase hcpy hknob
  · intro hpid
    have hne : ¬(pid ≠ PLUGINID_NATRON_OUTPUT) := by simpa using hpid
    have hnounfold : checkNodeName nodes [] none (stripLabelOFX label) false false
        = checkLoop nodes none (makeNameScriptFriendly (stripLabelOFX label)) false false
            (nodes.length + 1) 1 (makeNameScriptFriendly (stripLabelOFX label)) := by
      simp [checkNodeName, hbase, hcpy, hknob]
    have hstep := checkLoop_one_step nodes none
      (makeNameScriptFriendly (stripLabelOFX label)) false false (by simp) nodes.length 1
      (makeNameScriptFriendly (stripLabelOFX label))
    constructor
    · intro hfree
      have hres : checkNodeName nodes [] none (stripLabelOFX label) false false
          = some (Except.ok (makeNameScriptFriendly (stripLabelOFX label))) := by
        rw [hnounfold, hstep, if_neg (by simp [hfree])]
      simp [initNodeName, hne, hres]
    · intro htaken
      have hres : checkNodeName nodes [] none (stripLabelOFX label) false false
          = some (Except.error NameErr.nameExists) := by
        rw [hnounfold, hstep, if_pos htaken]
      have hfall : initNodeName nodes [] pid label
          = checkNodeName nodes [] none (stripLabelOFX label) true false := by
        simp [initNodeName, hne, hres]
      rw [hfall]
      exact checkNodeName_append_ok nodes [] none (stripLabelOFX label) hbase hcpy hknob

/-- C6 (witness): a non output-terminal plugin with an alphanumeric label
receives a numerically suffixed collision-free name. -/
theorem C6_initNodeName_amended_witness :
    ∃ k, 1 ≤ k ∧ initNodeName [] [] "com.example.p" ['A', 'B']
        = some (Except.ok (makeNameScriptFriendly (stripLabelOFX ['A', 'B']) ++ natToDec k))
      ∧ nameTaken [] none (makeNameScriptFriendly (stripLabelOFX ['A', 'B']) ++ natToDec k)
          = false :=
  (C6_initNodeName_amended [] "com.example.p" ['A', 'B'] (by decide)).2.2.1 (by decide)

theorem checkNodeName_ok_free (nodes : List NNode) (knobs : List (List Char))
    (excl : Option Nat) (base : List Char) (appendDigit errorIfExists : Bool) (nm : List Char)
    (h : checkNodeName nodes knobs excl base appendDigit errorIfExists
        = some (Except.ok nm)) :
    nameTaken nodes excl nm = false := by
  by_cases hb : base = []
  · simp [checkNodeName, hb] at h
  by_cases hcpy : makeNameScriptFriendly base = []
  · simp [checkNodeName, hb, hcpy] at h
  by_cases hknob : knobNameConflict knobs (makeNameScriptFriendly base) = true
  · simp [checkNodeName, hb, hcpy, hknob] at h
  have hknobf : knobNameConflict knobs (makeNameScriptFriendly base) = false := by
    simpa using hknob
  have hunfold : checkNodeName nodes knobs excl base appendDigit errorIfExists
      = checkLoop nodes excl (makeNameScriptFriendly base) appendDigit errorIfExists
          (nodes.length + 1) 1
          (makeNameScriptFriendly base ++ if appendDigit then natToDec 1 else []) := by
    simp [checkNodeName, hb, hcpy, hknobf]
  rw [hunfold] at h
  exact (checkLoop_ok_shape nodes excl _ appendDigit errorIfExists _ 1 _ nm h).1

/-- C9 (counterexample): `addNode` performs no uniqueness check, so two plain
adds of same-named nodes leave two live members sharing a script identifier. -/
theorem C9_counterexample :
    (addNode (addNode [] ⟨0, ['a']⟩) ⟨1, ['a']⟩).map NNode.name = [['a'], ['a']]
    ∧ ¬ ((addNode (addNode [] ⟨0, ['a']⟩) ⟨1, ['a']⟩).map NNode.name).Nodup := by
  exact ⟨by rfl, by decide⟩

/-- C9 (amended): when every added node's script-name comes from a successful
`checkNodeName` call against the membership at the time of the add — the
naming protocol the spec requires of callers, since `addNode` itself performs
no check — any sequence of such `addNode` and `removeNode` calls preserves the
invariant that no two live members share a script identifier. -/
theorem C9_nodup_invariant (knobs : List (List Char)) (s t : List NNode)
    (h : Relation.ReflTransGen (NCStep knobs) s t)
    (hnd : (s.map NNode.name).Nodup) : (t.map NNode.name).Nodup := by
  induction h with
  | refl => exact hnd
  | tail hst hstep ih =>
      cases hstep with
      | add base appendDigit errorIfExists nm i hchk =>
          rename_i s'
          have hfree := checkNodeName_ok_free s' knobs none base appendDigit errorIfExists nm hchk
          have hnotin : nm ∉ s'.map NNode.name := by
            intro hmem
            obtain ⟨m, hm, hname⟩ := List.mem_map.mp hmem
            have : (s'.any fun x => exclOk none x && x.name == nm) = true := by
              refine List.any_eq_true.mpr ⟨m, hm, ?_⟩
              simp [exclOk, hname]
            rw [nameTaken] at hfree
            rw [hfree] at this
            cases this
          have : (addNode s' ⟨i, nm⟩).map NNode.name = s'.map NNode.name ++ [nm] := by
            simp [addNode]
          rw [this]
          exact List.Nodup.append ih (List.nodup_singleton nm)
            (by
              intro a ha hb
              rw [List.mem_singleton.mp hb] at ha
              exact hnotin ha)
      | remove p =>
          rename_i s'
          cases p with
          | none => simpa [removeNodeFromList] using ih
          | some q =>
              have hsub : List.Sublist ((removeNodeFromList s' (some q)).map NNode.name)
                  (s'.map NNode.name) := by
                simp only [removeNodeFromList]
                exact (List.eraseP_sublist s').map NNode.name
              exact ih.sublist hsub

/-- C9 (witness): a guarded add starting from the empty collection keeps the
script identifiers duplicate-free. -/
theorem C9_nodup_invariant_witness :
    (([⟨0, ['a', '1']⟩] : List NNode).map NNode.name).Nodup :=
  C9_nodup_invariant [] [] [⟨0, ['a', '1']⟩]
    (Relation.ReflTransGen.single
      (NCStep.add [] ['a'] true false ['a', '1'] 0 (by rfl)))
    (by decide)

theorem eraseP_no_match {α : Type} (l : List α) (p : α → Bool) (h : ∀ a ∈ l, ¬ p a) :
    l.eraseP p = l := by
  induction l with
  | nil => rfl
  | cons b t ih =>
      have hb : p b = false := by
        have := h b (List.mem_cons_self b t)
        simpa using this
      rw [List.eraseP_cons, hb]
      simp only [cond_false]
      exact congrArg (b :: ·) (ih (fun a ha => h a (List.mem_cons_of_mem _ ha)))

/-- C7: `removeNode` with a null node, or with a node that is no member of the
collection (the derived input/output lists referencing only members, as the
activation notifications maintain), leaves the membership list and the group's
derived input/output lists unchanged: the `onNodeRemoved` hook finds nothing
to prune. -/
theorem C7_removeNode_noop (st : GroupState) (p : Option Nat)
    (h : p = none ∨ ∃ q, p = some q ∧ q ∉ st.members
        ∧ (∀ x ∈ st.inputs, x ∈ st.members) ∧ (∀ x ∈ st.outputs, x ∈ st.members)) :
    removeNode st p = st := by
  rcases h with rfl | ⟨q, rfl, hq, hin, hout⟩
  · rfl
  · have hm : st.members.eraseP (fun i => i == q) = st.members := by
      refine eraseP_no_match _ _ (fun a ha hpa => ?_)
      exact hq (beq_iff_eq.mp hpa ▸ ha)
    have hi : st.inputs.eraseP (fun i => i == q) = st.inputs := by
      refine eraseP_no_match _ _ (fun a ha hpa => ?_)
      exact hq (beq_iff_eq.mp hpa ▸ hin a ha)
    have ho : st.outputs.eraseP (fun i => i == q) = st.outputs := by
      refine eraseP_no_match _ _ (fun a ha hpa => ?_)
      exact hq (beq_iff_eq.mp hpa ▸ hout a ha)
    simp [removeNode, onNodeRemoved, hm, hi, ho]

/-- C7 (witness): removing an id that is not a member changes nothing. -/
theorem C7_removeNode_noop_witness :
    removeNode ⟨[1], [1], []⟩ (some 2) = ⟨[1], [1], []⟩
    ∧ removeNode ⟨[1], [1], []⟩ none = ⟨[1], [1], []⟩ := by
  constructor
  · exact C7_removeNode_noop ⟨[1], [1], []⟩ (some 2)
      (Or.inr ⟨2, rfl, by decide, by decide, by decide⟩)
  · exact C7_removeNode_noop ⟨[1], [1], []⟩ none (Or.inl rfl)

/-- C5 (counterexample): with a regular `selected` that has one consumer and a
regular `created` without a preferred input slot, `autoConnectNodes` returns
failure but has already rewired the consumer from `selected` to `created`:
the existing wiring is not left unchanged on failure. -/
theorem C5_counterexample :
    (autoConnectNodes ⟨[⟨0, 1, false, some 0⟩, ⟨1, 2, false, none⟩, ⟨2, 1, false, some 0⟩],
        ([((2, 0), 0)] : List ((Nat × Nat) × Nat))⟩
      ⟨0, 1, false, some 0⟩ ⟨1, 2, false, none⟩).1 = false
    ∧ (autoConnectNodes ⟨[⟨0, 1, false, some 0⟩, ⟨1, 2, false, none⟩, ⟨2, 1, false, some 0⟩],
        ([((2, 0), 0)] : List ((Nat × Nat) × Nat))⟩
      ⟨0, 1, false, some 0⟩ ⟨1, 2, false, none⟩).2
      ≠ ⟨[⟨0, 1, false, some 0⟩, ⟨1, 2, false, none⟩, ⟨2, 1, false, some 0⟩],
        ([((2, 0), 0)] : List ((Nat × Nat) × Nat))⟩
    ∧ wireLookup (autoConnectNodes ⟨[⟨0, 1, false, some 0⟩, ⟨1, 2, false, none⟩,
        ⟨2, 1, false, some 0⟩], ([((2, 0), 0)] : List ((Nat × Nat) × Nat))⟩
      ⟨0, 1, false, some 0⟩ ⟨1, 2, false, none⟩).2.wires 2 0 = some 1 := by
  refine ⟨by rfl, by decide, by rfl⟩

/-- C5 (amended): `autoConnectNodes` returns failure when both nodes have zero
inputs or both are output terminals, and on those failures, on failures of the
connect-as-input direction (no preferred slot on `selected`), and on failures
with an output-terminal `created` (no preferred slot on `created`), the wiring
is unchanged; but when both nodes are non-terminal effects and `created` has
no preferred input slot, the call still fails while `selected`'s former
consumers have already been rewired to `created`. -/
theorem C5_autoConnectNodes_amended (g : Graph) (sel crd : WNode) :
    ((sel.maxInputCount = 0 ∧ crd.maxInputCount = 0) ∨
        (sel.isOutputNode = true ∧ crd.isOutputNode = true) →
      autoConnectNodes g sel crd = (false, g))
    ∧ (¬(sel.maxInputCount = 0 ∧ crd.maxInputCount = 0) →
        ¬(sel.isOutputNode = true ∧ crd.isOutputNode = true) →
        (sel.isOutputNode = true ∨ (crd.isOutputNode = false ∧ crd.maxInputCount = 0)) →
        sel.preferredInput = none →
        autoConnectNodes g sel crd = (false, g))
    ∧ (¬(sel.maxInputCount = 0 ∧ crd.maxInputCount = 0) →
        sel.isOutputNode = false → crd.isOutputNode = true →
        crd.preferredInput = none →
        autoConnectNodes g sel crd = (false, g))
    ∧ (¬(sel.maxInputCount = 0 ∧ crd.maxInputCount = 0) →
        sel.isOutputNode = false → crd.isOutputNode = false → crd.maxInputCount ≠ 0 →
        crd.preferredInput = none →
        (autoConnectNodes g sel crd).1 = false) := by
  refine ⟨?_, ?_, ?_, ?_⟩
  · intro h
    rcases h with ⟨h1, h2⟩ | ⟨h1, h2⟩
    · simp [autoConnectNodes, h1, h2]
    · simp [autoConnectNodes, h1, h2]
  · intro hnz hno hdir hpref
    have h1 : (sel.maxInputCount == 0 && crd.maxInputCount == 0) = false := by
      simpa using hnz
    have h2 : (sel.isOutputNode && crd.isOutputNode) = false := by
      simpa using hno
    rcases hdir with hso | ⟨hco, hcz⟩
    · simp [autoConnectNodes, h1, h2, hso, hpref]
    · by_cases hso : sel.isOutputNode = true
      · simp [autoConnectNodes, h1, h2, hso, hpref]
      · have hso2 : sel.isOutputNode = false := by simpa using hso
        simp [autoConnectNodes, h1, h2, hso2, hco, hcz, hpref]
  · intro hnz hso hco hpref
    have h1 : (sel.maxInputCount == 0 && crd.maxInputCount == 0) = false := by
      simpa using hnz
    simp [autoConnectNodes, h1, hso, hco, hpref]
  · intro hnz hso hco hcz hpref
    have h1 : (sel.maxInputCount == 0 && crd.maxInputCount == 0) = false := by
      simpa using hnz
    simp [autoConnectNodes, h1, hso, hco, hcz, hpref]

/-- C5 (witness): two output terminals fail with the graph unchanged. -/
theorem C5_autoConnectNodes_amended_witness :
    autoConnectNodes ⟨[], ([] : List ((Nat × Nat) × Nat))⟩
        ⟨0, 1, true, none⟩ ⟨1, 1, true, none⟩
      = (false, ⟨[], ([] : List ((Nat × Nat) × Nat))⟩) :=
  (C5_autoConnectNodes_amended ⟨[], ([] : List ((Nat × Nat) × Nat))⟩
      ⟨0, 1, true, none⟩ ⟨1, 1, true, none⟩).1 (Or.inr ⟨rfl, rfl⟩)

theorem createNodeStep_foldl_fst (factory : SRecord → Option CNode) :
    ∀ (recs : List SRecord) (acc : Bool × List (Option CNode) × List (SRecord × CNode)),
      (recs.foldl (createNodeStep factory) acc).1
        = (acc.1 || recs.any (fun r =>
            match factory r with
            | none => true
            | some n => n.pluginID == PLUGINID_NATRON_STUB)) := by
  intro recs
  induction recs with
  | nil => intro acc; simp
  | cons r rest ih =>
      intro acc
      rw [List.foldl_cons, ih]
      cases hf : factory r with
      | none => simp [createNodeStep, hf]
      | some n =>
          by_cases hstub : n.pluginID == PLUGINID_NATRON_STUB
          · simp [createNodeStep, hf, hstub]
          · simp only [createNodeStep, hf, List.any_cons, hstub]
            simp only [Bool.false_eq_true, if_false]
            cases acc1 : acc.1 <;> simp [hstub]

theorem createNodeStep_foldl_length (factory : SRecord → Option CNode) :
    ∀ (recs : List SRecord) (acc : Bool × List (Option CNode) × List (SRecord × CNode)),
      (recs.foldl (createNodeStep factory) acc).2.1.length
        = acc.2.1.length + recs.length := by
  intro recs
  induction recs with
  | nil => intro acc; simp
  | cons r rest ih =>
      intro acc
      rw [List.foldl_cons, ih]
      cases hf : factory r with
      | none => simp [createNodeStep, hf]; omega
      | some n => simp [createNodeStep, hf]; omega

/-- C3 (counterexample): a batch whose single record loads with a different
major version (a version-mismatch anomaly) still makes
`createNodesFromSerialization` return true — only creation failures and stub
substitutions flip the returned boolean. -/
theorem C3_counterexample :
    (createNodesFromSerialization
        (fun _ => some ⟨0, "com.acme.blur", 2, "Blur1", [], []⟩) [] false
        [⟨"com.acme.blur", 1, "Blur1", [], []⟩] []).success = true
    ∧ (⟨"com.acme.blur", 1, "Blur1", [], []⟩ : SRecord).pluginMajorVersion ≠ -1
    ∧ (⟨0, "com.acme.blur", 2, "Blur1", [], []⟩ : CNode).majorVersion
        ≠ (⟨"com.acme.blur", 1, "Blur1", [], []⟩ : SRecord).pluginMajorVersion
    ∧ (⟨0, "com.acme.blur", 2, "Blur1", [], []⟩ : CNode).pluginID
        ≠ PLUGINID_NATRON_STUB := by
  refine ⟨by rfl, by decide, by decide, by decide⟩

/-- C3 (amended): `createNodesFromSerialization` returns false if and only if
some record of the batch failed to create or was replaced by a pass-through
stub; version mismatches and unresolved input/mask/parameter references are
only logged and do not flip the returned boolean; the partially-wired result
is still produced (one `createdNodesOut` entry per record), never rolled
back. -/
theorem C3_createNodes_success_iff (factory : SRecord → Option CNode)
    (existingNodes : List CNode) (connectToExternalNodes : Bool)
    (serializedNodes : List SRecord) (w0 : Wires) :
    ((createNodesFromSerialization factory existingNodes connectToExternalNodes
        serializedNodes w0).success = false
      ↔ ∃ r ∈ serializedNodes, factory r = none
          ∨ ∃ n, factory r = some n ∧ n.pluginID = PLUGINID_NATRON_STUB)
    ∧ (createNodesFromSerialization factory existingNodes connectToExternalNodes
        serializedNodes w0).createdNodesOut.length = serializedNodes.length := by
  constructor
  · have hfst := createNodeStep_foldl_fst factory serializedNodes (false, [], [])
    simp only [createNodesFromSerialization, Bool.false_or] at hfst ⊢
    rw [hfst]
    simp only [Bool.not_eq_false', List.any_eq_true]
    constructor
    · rintro ⟨r, hr, hprop⟩
      refine ⟨r, hr, ?_⟩
      cases hf : factory r with
      | none => exact Or.inl rfl
      | some n =>
          rw [hf] at hprop
          exact Or.inr ⟨n, rfl, beq_iff_eq.mp hprop⟩
    · rintro ⟨r, hr, hprop⟩
      refine ⟨r, hr, ?_⟩
      rcases hprop with hf | ⟨n, hf, hstub⟩
      · rw [hf]
      · rw [hf]
        exact beq_iff_eq.mpr hstub
  · have hlen := createNodeStep_foldl_length factory serializedNodes (false, [], [])
    simp only [createNodesFromSerialization]
    rw [hlen]
    simp

/-- C3 (witness): an empty batch succeeds and produces no nodes. -/
theorem C3_createNodes_success_iff_witness :
    ((createNodesFromSerialization (fun _ => none) [] false [] []).success = false
      ↔ ∃ r ∈ ([] : List SRecord), (fun _ => (none : Option CNode)) r = none
          ∨ ∃ n, (fun _ => (none : Option CNode)) r = some n
              ∧ n.pluginID = PLUGINID_NATRON_STUB)
    ∧ (createNodesFromSerialization (fun _ => (none : Option CNode)) [] false []
        []).createdNodesOut.length = ([] : List SRecord).length :=
  C3_createNodes_success_iff (fun _ => none) [] false [] []

theorem maskIndexLoop_nonzero (idx : Int) (hidx : idx ≠ 0) :
    ∀ (flags : List Bool) (i : Nat), maskIndexLoop flags i 0 idx = idx := by
  intro flags
  induction flags with
  | nil => intro i; rfl
  | cons f rest ih =>
      intro i
      cases f with
      | true => simp [maskIndexLoop, hidx, Ne.symm hidx]
      | false => simpa [maskIndexLoop] using ih (i + 1)

theorem maskIndexLoop_zero :
    ∀ (flags : List Bool) (i : Nat),
      maskIndexLoop flags i 0 0
        = (match flags.findIdx? (fun b => b) with
           | some j => ((i + j : Nat) : Int)
           | none => 0) := by
  intro flags
  induction flags with
  | nil => intro i; rfl
  | cons f rest ih =>
      intro i
      cases f with
      | true => simp [maskIndexLoop, List.findIdx?_cons]
      | false =>
          rw [maskIndexLoop, if_neg (by simp)]
          rw [ih (i + 1)]
          rw [List.findIdx?_cons]
          simp only [Bool.false_eq_true, if_false]
          rw [List.findIdx?_succ]
          cases hfind : rest.findIdx? (fun b => b) with
          | none => simp [hfind]
          | some j =>
              simp only [hfind, Option.map_some']
              have h2 : i + 1 + j = i + (j + 1) := by omega
              rw [h2]

theorem maskIndexLoop_stops_at_first (k : Int) :
    ∀ (pre : List Bool), (∀ b ∈ pre, b = false) →
      ∀ (post : List Bool) (i : Nat),
        maskIndexLoop (pre ++ true :: post) i 0 k
          = if 0 = k then ((i + pre.length : Nat) : Int) else k := by
  intro pre
  induction pre with
  | nil =>
      intro _ post i
      simp [maskIndexLoop]
  | cons b rest ih =>
      intro hpre post i
      have hb : b = false := hpre b (List.mem_cons_self _ _)
      subst hb
      rw [List.cons_append, maskIndexLoop, if_neg (by simp)]
      rw [ih (fun x hx => hpre x (List.mem_cons_of_mem _ hx)) post (i + 1)]
      simp only [List.length_cons]
      split
      · have h2 : i + 1 + rest.length = i + (rest.length + 1) := by omega
        rw [h2]
      · rfl

/-- C4: when the input label is not a recognized port label and parses as a
numeric mask index, the resolved index is the mask-loop remap, which examines
only the first mask-capable slot (the result is independent of every slot
after it) and remaps only a bare index of 0 — to that first mask-capable
slot — leaving every nonzero index unchanged. -/
theorem C4_mask_loop_first_slot_only (node : CNode) (label : String) (k : Int)
    (hlab : getInputNumberFromLabel node label = -1)
    (hne : (label == "") = false)
    (hp : parseIntChars label.data = some k) :
    restoreInputResolvedIndex node label true = maskRemapIndex node.maskFlags k
    ∧ (k ≠ 0 → maskRemapIndex node.maskFlags k = k)
    ∧ (k = 0 → maskRemapIndex node.maskFlags k
        = (match node.maskFlags.findIdx? (fun b => b) with
           | some j => (j : Int)
           | none => 0))
    ∧ (∀ (pre post post2 : List Bool), (∀ b ∈ pre, b = false) →
        maskRemapIndex (pre ++ true :: post) k
          = maskRemapIndex (pre ++ true :: post2) k) := by
  refine ⟨?_, ?_, ?_, ?_⟩
  · simp [restoreInputResolvedIndex, hne, hlab, hp]
  · intro hk
    exact maskIndexLoop_nonzero k hk node.maskFlags 0
  · intro hk
    subst hk
    have := maskIndexLoop_zero node.maskFlags 0
    simpa [maskRemapIndex] using this
  · intro pre post post2 hpre
    rw [maskRemapIndex, maskRemapIndex,
      maskIndexLoop_stops_at_first k pre hpre post 0,
      maskIndexLoop_stops_at_first k pre hpre post2 0]

/-- C4 (witness): a node whose only mask-capable slot is slot 1, with the
bare numeric label "1": the loop breaks at that first mask slot without
matching, so the index stays 1 only by accident of equality — and a nonzero
index is never remapped. -/
theorem C4_mask_loop_first_slot_only_witness :
    restoreInputResolvedIndex ⟨0, "p", 1, "n", ["A"], [false, true]⟩ "1" true
        = maskRemapIndex [false, true] 1
    ∧ maskRemapIndex [false, true] 1 = 1 :=
  ⟨(C4_mask_loop_first_slot_only ⟨0, "p", 1, "n", ["A"], [false, true]⟩ "1" 1
      (by rfl) (by rfl) (by rfl)).1,
   (C4_mask_loop_first_slot_only ⟨0, "p", 1, "n", ["A"], [false, true]⟩ "1" 1
      (by rfl) (by rfl) (by rfl)).2.1 (by decide)⟩

end NatronSpec
